import Mathlib

/-!
Verification of the design-pattern demo repository (Singleton, Factory
Method, Prototype).  The Prototype demo is embedded with an explicit
JavaScript-style heap: objects carry an optional internal prototype link
and an ordered association list of own enumerable fields; references are
natural numbers allocated by a bump counter.
-/

set_option autoImplicit false

/-- A JavaScript value as far as the demo needs: an opaque primitive
(modelled as a natural number) or a reference to a heap object. -/
inductive JSValue where
  | vprim (n : Nat)
  | vref (r : Nat)
  deriving DecidableEq, Repr

/-- A heap object: an optional internal prototype link (the target of
`Object.create`) and the ordered list of own enumerable fields. -/
structure JSObj where
  proto : Option Nat
  fields : List (String × JSValue)
  deriving DecidableEq, Repr

/-- The heap: a bump allocator counter and a partial map from references
to objects. -/
@[ext] structure JSHeap where
  nextRef : Nat
  objs : Nat → Option JSObj

/-- Own-property read: first binding of the field in the object's own
field list, no prototype-chain walk. -/
def JSObj.getOwn (o : JSObj) (f : String) : Option JSValue :=
  List.lookup f o.fields

/-- JavaScript assignment semantics on a field list: overwrite the first
binding of the key in place, or append a new binding at the end. -/
def setField : List (String × JSValue) → String → JSValue → List (String × JSValue)
  | [], f, v => [(f, v)]
  | (g, w) :: rest, f, v =>
    if g = f then (f, v) :: rest else (g, w) :: setField rest f v

/-- Replace the object stored at a reference. -/
def JSHeap.setObj (h : JSHeap) (r : Nat) (o : JSObj) : JSHeap :=
  { nextRef := h.nextRef, objs := fun x => if x = r then some o else h.objs x }

/-- Allocate a fresh object, returning its reference and the new heap. -/
def JSHeap.alloc (h : JSHeap) (o : JSObj) : Nat × JSHeap :=
  (h.nextRef,
   { nextRef := h.nextRef + 1,
     objs := fun x => if x = h.nextRef then some o else h.objs x })

/-- `target.f = v`: update one own field of the object at a reference
(no-op on a dangling reference, which never arises in the demo). -/
def JSHeap.setObjField (h : JSHeap) (r : Nat) (f : String) (v : JSValue) : JSHeap :=
  match h.objs r with
  | some o => h.setObj r { proto := o.proto, fields := setField o.fields f v }
  | none => h

/-- The own enumerable fields contributed by a spread `{ ...v }`: the own
fields of the referenced object; a primitive or absent value contributes
nothing. -/
def spreadFields (h : JSHeap) : Option JSValue → List (String × JSValue)
  | some (JSValue.vref r) =>
    match h.objs r with
    | some o => o.fields
    | none => []
  | _ => []

/-- Full JavaScript property read: own fields first, then the prototype
chain, with explicit fuel bounding the chain length. -/
def JSHeap.getProp (h : JSHeap) : Nat → Nat → String → Option JSValue
  | 0, _, _ => none
  | fuel + 1, r, f =>
    match h.objs r with
    | none => none
    | some o =>
      match o.getOwn f with
      | some v => some v
      | none =>
        match o.proto with
        | some pr => h.getProp fuel pr f
        | none => none

/-- Own-property read addressed by reference. -/
def JSHeap.getOwnAt (h : JSHeap) (r : Nat) (f : String) : Option JSValue :=
  match h.objs r with
  | some o => o.getOwn f
  | none => none

/-- `Prototype.clone` from the Prototype demo, statement by statement:
`const clone = Object.create(this)` (a fresh object delegating to the
source, with no own fields); `clone.component = Object.create(this.component)`
(a fresh object delegating to the source component, a TypeError — `none`
here — when `this.component` is not an object);
`clone.circularReference = { ...this.circularReference, prototype: { ...this } }`
(a fresh literal holding the holder's own fields with its `prototype` key
overwritten by a reference to a second fresh literal `{ ...this }`, the
shallow copy of the source's own fields). -/
def Prototype.clone (h : JSHeap) (p : Nat) : Option (Nat × JSHeap) :=
  match h.objs p with
  | none => none
  | some pObj =>
    let a1 := h.alloc { proto := some p, fields := [] }
    let cloneRef := a1.1
    let h1 := a1.2
    match pObj.getOwn "component" with
    | some (JSValue.vref c) =>
      let a2 := h1.alloc { proto := some c, fields := [] }
      let compCloneRef := a2.1
      let h2 := (a2.2).setObjField cloneRef "component" (JSValue.vref compCloneRef)
      let circFields := spreadFields h2 (pObj.getOwn "circularReference")
      let a3 := h2.alloc { proto := none, fields := pObj.fields }
      let protoCopyRef := a3.1
      let a4 := (a3.2).alloc
        { proto := none,
          fields := setField circFields "prototype" (JSValue.vref protoCopyRef) }
      let circCloneRef := a4.1
      let h4 := (a4.2).setObjField cloneRef "circularReference" (JSValue.vref circCloneRef)
      some (cloneRef, h4)
    | _ => none

/-- The heap produced by a successful `Prototype.clone h p` on a source
object `pObj` whose component is `c` and whose back-reference holder is
`b` with object `bObj`: the clone at `h.nextRef`, the component clone at
`h.nextRef + 1`, the shallow copy of the source at `h.nextRef + 2`, the
holder clone at `h.nextRef + 3`, everything else untouched. -/
def cloneResultHeap (h : JSHeap) (p : Nat) (pObj : JSObj) (c : Nat) (bObj : JSObj) : JSHeap :=
  { nextRef := h.nextRef + 4,
    objs := fun r =>
      if r = h.nextRef then
        some { proto := some p,
               fields := [("component", JSValue.vref (h.nextRef + 1)),
                          ("circularReference", JSValue.vref (h.nextRef + 3))] }
      else if r = h.nextRef + 1 then
        some { proto := some c, fields := [] }
      else if r = h.nextRef + 2 then
        some { proto := none, fields := pObj.fields }
      else if r = h.nextRef + 3 then
        some { proto := none,
               fields := setField bObj.fields "prototype" (JSValue.vref (h.nextRef + 2)) }
      else h.objs r }

/-- The well-formedness precondition of the spec for a Prototype value:
the object is live, its `component` and `circularReference` fields hold
live object references, and every involved reference was allocated by
this heap. -/
def wellFormedProto (h : JSHeap) (p : Nat) : Prop :=
  ∃ pObj c b,
    h.objs p = some pObj ∧
    pObj.getOwn "component" = some (JSValue.vref c) ∧
    pObj.getOwn "circularReference" = some (JSValue.vref b) ∧
    (h.objs c).isSome = true ∧
    (h.objs b).isSome = true ∧
    p < h.nextRef ∧ c < h.nextRef ∧ b < h.nextRef

/-- The decidable shape check behind the spec's notion of a malformed
input: `component` and `circularReference` (the back-reference holder)
must both be populated with live objects. -/
def hasRequiredFields (h : JSHeap) (p : Nat) : Bool :=
  match h.objs p with
  | none => false
  | some pObj =>
    (match pObj.getOwn "component" with
     | some (JSValue.vref c) => (h.objs c).isSome
     | _ => false)
    &&
    (match pObj.getOwn "circularReference" with
     | some (JSValue.vref b) => (h.objs b).isSome
     | _ => false)

/-- Error kind of the checked clone. -/
inductive CloneError where
  | invalidArgument
  deriving DecidableEq, Repr

/-- Modelled from the spec: the reimplementation's fail-fast precondition
check, absent from the source — a malformed input (missing `component` or
back-reference holder) is rejected with an `InvalidArgument`-class error
instead of producing a partial clone; a well-formed input is cloned
exactly as the source clones it. -/
def cloneChecked (h : JSHeap) (p : Nat) : Except CloneError (Nat × JSHeap) :=
  if hasRequiredFields h p then
    match Prototype.clone h p with
    | some res => Except.ok res
    | none => Except.error CloneError.invalidArgument
  else
    Except.error CloneError.invalidArgument

/-- The mutable static state of the Singleton class: the bump allocator
for object identities and the `Singleton.instance` static field. -/
structure SingletonState where
  nextRef : Nat
  instanceStore : Option Nat
  deriving DecidableEq, Repr

/-- `Singleton.getInstance()`: construct and cache the instance on first
call, return the cached reference afterwards. -/
def Singleton.getInstance : SingletonState → Nat × SingletonState
  | { nextRef := n, instanceStore := none } =>
    (n, { nextRef := n + 1, instanceStore := some n })
  | { nextRef := n, instanceStore := some r } =>
    (r, { nextRef := n, instanceStore := some r })

/-- The fresh per-process state: no instance constructed yet. -/
def initialSingletonState : SingletonState :=
  { nextRef := 0, instanceStore := none }

/-- The closed set of concrete products of the Factory Method demo. -/
inductive Product where
  | concreteProduct1
  | concreteProduct2
  deriving DecidableEq, Repr

/-- `operation()` of each concrete product. -/
def Product.operation : Product → String
  | Product.concreteProduct1 => "\x7bResult of the ConcreteProduct1\x7d"
  | Product.concreteProduct2 => "\x7bResult of the ConcreteProduct2\x7d"

/-- The concrete creators of the Factory Method demo. -/
inductive Creator where
  | concreteCreator1
  | concreteCreator2
  deriving DecidableEq, Repr

/-- The overridden `factoryMethod()` of each concrete creator. -/
def Creator.factoryMethod : Creator → Product
  | Creator.concreteCreator1 => Product.concreteProduct1
  | Creator.concreteCreator2 => Product.concreteProduct2

/-- The base-class `someOperation()`: call the factory method and embed
the product's `operation()` result in the formatted string. -/
def Creator.someOperation (cr : Creator) : String :=
  "Creator: The same creator\x27s code has just worked with "
    ++ (cr.factoryMethod).operation

/-- The client-code example of the Prototype demo: `p1` at reference 0
with `primitive = 245`, its date-like component at reference 1, and its
back-reference holder at reference 2 with `prototype` pointing back at
`p1`. -/
def p1Obj : JSObj :=
  { proto := none,
    fields := [("primitive", JSValue.vprim 245),
               ("component", JSValue.vref 1),
               ("circularReference", JSValue.vref 2)] }

/-- The date-like component object of the example. -/
def dateObj : JSObj :=
  { proto := none, fields := [("time", JSValue.vprim 1699999999)] }

/-- The back-reference holder of the example, owned by `p1`. -/
def holderObj : JSObj :=
  { proto := none, fields := [("prototype", JSValue.vref 0)] }

/-- The example heap after the client code has built `p1`. -/
def exampleHeap : JSHeap :=
  { nextRef := 3,
    objs := fun r =>
      if r = 0 then some p1Obj
      else if r = 1 then some dateObj
      else if r = 2 then some holderObj
      else none }

/-- A malformed Prototype object: the back-reference holder field is
missing entirely. -/
def badProtoObj : JSObj :=
  { proto := none,
    fields := [("primitive", JSValue.vprim 245), ("component", JSValue.vref 1)] }

/-- A heap holding the malformed Prototype object at reference 0. -/
def badHeap : JSHeap :=
  { nextRef := 2,
    objs := fun r =>
      if r = 0 then some badProtoObj
      else if r = 1 then some dateObj
      else none }

/-- Projection used to observe the clone's back-reference owner: run the
clone and read `clone.circularReference.prototype` as own properties in
the result heap. -/
def backRefOwnerOfClone (h : JSHeap) (p : Nat) : Option JSValue :=
  match Prototype.clone h p with
  | none => none
  | some (r, h') =>
    match h'.getOwnAt r "circularReference" with
    | some (JSValue.vref cr) => h'.getOwnAt cr "prototype"
    | _ => none

/-- Projection: the reference returned by the clone. -/
def cloneRefOf (h : JSHeap) (p : Nat) : Option Nat :=
  (Prototype.clone h p).map (fun res => res.1)

/-- Projection: run the clone and read an own field of `clone.component`
in the result heap (no prototype-chain walk). -/
def componentOwnFieldOfClone (h : JSHeap) (p : Nat) (f : String) : Option JSValue :=
  match Prototype.clone h p with
  | none => none
  | some (r, h') =>
    match h'.getOwnAt r "component" with
    | some (JSValue.vref cc) => h'.getOwnAt cc f
    | _ => none

theorem lookup_setField_self (l : List (String × JSValue)) (f : String) (v : JSValue) :
    List.lookup f (setField l f v) = some v := by
  induction l with
  | nil => simp [setField, List.lookup]
  | cons hd tl ih =>
    obtain ⟨g, w⟩ := hd
    by_cases hgf : g = f
    · simp [setField, hgf, List.lookup]
    · have hb : (f == g) = false := beq_eq_false_iff_ne.mpr (Ne.symm hgf)
      simp [setField, hgf, List.lookup, hb, ih]

theorem lookup_setField_other (l : List (String × JSValue)) (f g : String) (v : JSValue)
    (hne : g ≠ f) : List.lookup g (setField l f v) = List.lookup g l := by
  have hgf : (g == f) = false := beq_eq_false_iff_ne.mpr hne
  induction l with
  | nil => simp [setField, List.lookup, hgf]
  | cons hd tl ih =>
    obtain ⟨k, w⟩ := hd
    by_cases hkf : k = f
    · subst hkf
      simp [setField, List.lookup, hgf]
    · simp [setField, hkf, List.lookup, ih]

theorem clone_spec (h : JSHeap) (p c b : Nat) (pObj bObj : JSObj)
    (hp : h.objs p = some pObj)
    (hcomp : pObj.getOwn "component" = some (JSValue.vref c))
    (hcirc : pObj.getOwn "circularReference" = some (JSValue.vref b))
    (hb : h.objs b = some bObj)
    (hbn : b < h.nextRef) :
    Prototype.clone h p = some (h.nextRef, cloneResultHeap h p pObj c bObj) := by
  have e01 : ¬ (h.nextRef = h.nextRef + 1) := by omega
  have e02 : ¬ (h.nextRef = h.nextRef + 2) := by omega
  have e03 : ¬ (h.nextRef = h.nextRef + 3) := by omega
  have eb0 : ¬ (b = h.nextRef) := by omega
  have eb1 : ¬ (b = h.nextRef + 1) := by omega
  simp only [Prototype.clone, hp, hcomp, hcirc, JSHeap.alloc, JSHeap.setObjField,
    JSHeap.setObj, spreadFields]
  simp only [show h.nextRef + 1 + 1 = h.nextRef + 2 from rfl,
    show h.nextRef + 2 + 1 = h.nextRef + 3 from rfl,
    show h.nextRef + 3 + 1 = h.nextRef + 4 from rfl]
  simp only [e01, e02, e03, eb0, eb1, if_false, ite_false, eq_self_iff_true,
    if_true, ite_true, hb]
  refine congrArg some (congrArg (Prod.mk h.nextRef) ?_)
  ext x
  · rfl
  · simp only [cloneResultHeap]
    by_cases hx0 : x = h.nextRef
    · subst hx0
      simp [setField]
    · by_cases hx1 : x = h.nextRef + 1
      · subst hx1
        simp [e01, Ne.symm (by omega : h.nextRef ≠ h.nextRef + 1)]
      · by_cases hx2 : x = h.nextRef + 2
        · subst hx2
          simp [(by omega : ¬ (h.nextRef + 2 = h.nextRef)),
                (by omega : ¬ (h.nextRef + 2 = h.nextRef + 1)),
                (by omega : ¬ (h.nextRef + 2 = h.nextRef + 3))]
        · by_cases hx3 : x = h.nextRef + 3
          · subst hx3
            simp [(by omega : ¬ (h.nextRef + 3 = h.nextRef)),
                  (by omega : ¬ (h.nextRef + 3 = h.nextRef + 1)),
                  (by omega : ¬ (h.nextRef + 3 = h.nextRef + 2))]
          · simp [hx0, hx1, hx2, hx3]

theorem cloneResultHeap_frame (h : JSHeap) (p : Nat) (pObj : JSObj) (c : Nat) (bObj : JSObj)
    (r : Nat) (hr : r < h.nextRef) :
    (cloneResultHeap h p pObj c bObj).objs r = h.objs r := by
  have h0 : ¬ (r = h.nextRef) := by omega
  have h1 : ¬ (r = h.nextRef + 1) := by omega
  have h2 : ¬ (r = h.nextRef + 2) := by omega
  have h3 : ¬ (r = h.nextRef + 3) := by omega
  simp [cloneResultHeap, h0, h1, h2, h3]

/-- Claim C9: every call to `Singleton.getInstance` returns the same
object identity: the first call (from the fresh per-process state)
constructs and caches the instance, every call on a state with a cached
instance returns that cached reference without changing the state, and
two consecutive calls return reference-equal results. -/
theorem getInstance_returns_same_instance :
    (Singleton.getInstance initialSingletonState
      = (0, { nextRef := 1, instanceStore := some 0 })) ∧
    (∀ s r, s.instanceStore = some r → Singleton.getInstance s = (r, s)) ∧
    (∀ s, (Singleton.getInstance (Singleton.getInstance s).2).1
            = (Singleton.getInstance s).1) := by
  refine ⟨rfl, ?_, ?_⟩
  · intro s r hs
    obtain ⟨n, st⟩ := s
    cases st with
    | none => simp at hs
    | some q =>
      obtain rfl : q = r := by simpa using hs
      rfl
  · intro s
    obtain ⟨n, st⟩ := s
    cases st <;> rfl

theorem getInstance_returns_same_instance_witness :
    Singleton.getInstance { nextRef := 1, instanceStore := some 0 }
      = (0, { nextRef := 1, instanceStore := some 0 }) :=
  getInstance_returns_same_instance.2.1 { nextRef := 1, instanceStore := some 0 } 0 rfl

/-- Claim C10: `someOperation` on `ConcreteCreator1` returns a formatted
string containing `ConcreteProduct1`'s operation string, `someOperation`
on `ConcreteCreator2` contains `ConcreteProduct2`'s, and the two product
strings are distinct. -/
theorem someOperation_embeds_product_string :
    (∃ s t, Creator.someOperation Creator.concreteCreator1
        = s ++ Product.operation Product.concreteProduct1 ++ t) ∧
    (∃ s t, Creator.someOperation Creator.concreteCreator2
        = s ++ Product.operation Product.concreteProduct2 ++ t) ∧
    Product.operation Product.concreteProduct1
      ≠ Product.operation Product.concreteProduct2 := by
  refine ⟨⟨"Creator: The same creator\x27s code has just worked with ", "", by decide⟩,
    ⟨"Creator: The same creator\x27s code has just worked with ", "", by decide⟩,
    by decide⟩

/-- Claim C3: the clone's back-reference owner (`clone.circularReference.prototype`)
is reference-distinct from the original object. -/
theorem clone_backref_owner_ne_original (h : JSHeap) (p c b : Nat) (pObj bObj : JSObj)
    (hp : h.objs p = some pObj)
    (hcomp : pObj.getOwn "component" = some (JSValue.vref c))
    (hcirc : pObj.getOwn "circularReference" = some (JSValue.vref b))
    (hb : h.objs b = some bObj)
    (hpn : p < h.nextRef) (hbn : b < h.nextRef) :
    ∃ h' cr ow,
      Prototype.clone h p = some (h.nextRef, h') ∧
      h'.getOwnAt h.nextRef "circularReference" = some (JSValue.vref cr) ∧
      h'.getOwnAt cr "prototype" = some (JSValue.vref ow) ∧
      ow ≠ p := by
  refine ⟨cloneResultHeap h p pObj c bObj, h.nextRef + 3, h.nextRef + 2,
    clone_spec h p c b pObj bObj hp hcomp hcirc hb hbn, ?_, ?_, by omega⟩
  · simp [JSHeap.getOwnAt, cloneResultHeap, JSObj.getOwn, List.lookup]
  · have h0 : ¬ (h.nextRef + 3 = h.nextRef) := by omega
    have h1 : ¬ (h.nextRef + 3 = h.nextRef + 1) := by omega
    have h2 : ¬ (h.nextRef + 3 = h.nextRef + 2) := by omega
    simp only [JSHeap.getOwnAt, cloneResultHeap, h0, h1, h2,
      if_false, ite_false, eq_self_iff_true, if_true, ite_true]
    exact lookup_setField_self bObj.fields "prototype" (JSValue.vref (h.nextRef + 2))

theorem clone_backref_owner_ne_original_witness :
    ∃ h' cr ow,
      Prototype.clone exampleHeap 0 = some (3, h') ∧
      h'.getOwnAt 3 "circularReference" = some (JSValue.vref cr) ∧
      h'.getOwnAt cr "prototype" = some (JSValue.vref ow) ∧
      ow ≠ 0 :=
  clone_backref_owner_ne_original exampleHeap 0 1 2 p1Obj holderObj rfl rfl rfl rfl
    (by decide) (by decide)

/-- Claim C4: the clone's back-reference holder is a new object,
reference-distinct from the source holder, and its owner slot holds a
fresh object (no reference of the original heap) whose own fields are a
one-level shallow copy of the source object's own fields. -/
theorem clone_backref_holder_fresh_shallow_owner (h : JSHeap) (p c b : Nat)
    (pObj bObj : JSObj)
    (hp : h.objs p = some pObj)
    (hcomp : pObj.getOwn "component" = some (JSValue.vref c))
    (hcirc : pObj.getOwn "circularReference" = some (JSValue.vref b))
    (hb : h.objs b = some bObj)
    (hbn : b < h.nextRef) :
    ∃ h' cr ow,
      Prototype.clone h p = some (h.nextRef, h') ∧
      h'.getOwnAt h.nextRef "circularReference" = some (JSValue.vref cr) ∧
      cr ≠ b ∧
      h'.getOwnAt cr "prototype" = some (JSValue.vref ow) ∧
      (∀ r, r < h.nextRef → ow ≠ r) ∧
      (∃ owObj, h'.objs ow = some owObj ∧ owObj.fields = pObj.fields) := by
  refine ⟨cloneResultHeap h p pObj c bObj, h.nextRef + 3, h.nextRef + 2,
    clone_spec h p c b pObj bObj hp hcomp hcirc hb hbn, ?_, by omega, ?_,
    by intro r hr; omega, ?_⟩
  · simp [JSHeap.getOwnAt, cloneResultHeap, JSObj.getOwn, List.lookup]
  · have h0 : ¬ (h.nextRef + 3 = h.nextRef) := by omega
    have h1 : ¬ (h.nextRef + 3 = h.nextRef + 1) := by omega
    have h2 : ¬ (h.nextRef + 3 = h.nextRef + 2) := by omega
    simp only [JSHeap.getOwnAt, cloneResultHeap, h0, h1, h2,
      if_false, ite_false, eq_self_iff_true, if_true, ite_true]
    exact lookup_setField_self bObj.fields "prototype" (JSValue.vref (h.nextRef + 2))
  · refine ⟨{ proto := none, fields := pObj.fields }, ?_, rfl⟩
    have h0 : ¬ (h.nextRef + 2 = h.nextRef) := by omega
    have h1 : ¬ (h.nextRef + 2 = h.nextRef + 1) := by omega
    simp [cloneResultHeap, h0, h1]

theorem clone_backref_holder_fresh_shallow_owner_witness :
    ∃ h' cr ow,
      Prototype.clone exampleHeap 0 = some (3, h') ∧
      h'.getOwnAt 3 "circularReference" = some (JSValue.vref cr) ∧
      cr ≠ 2 ∧
      h'.getOwnAt cr "prototype" = some (JSValue.vref ow) ∧
      (∀ r, r < 3 → ow ≠ r) ∧
      (∃ owObj, h'.objs ow = some owObj ∧ owObj.fields = p1Obj.fields) :=
  clone_backref_holder_fresh_shallow_owner exampleHeap 0 1 2 p1Obj holderObj
    rfl rfl rfl rfl (by decide)

/-- Claim C5: immediately after the clone operation, reading the clone's
`primitive` property yields the same value as the source's `primitive`
(any prototype-chain fuel of at least 2 suffices). -/
theorem clone_primitive_value_preserved (h : JSHeap) (p c b : Nat) (pObj bObj : JSObj)
    (prim : JSValue)
    (hp : h.objs p = some pObj)
    (hprim : pObj.getOwn "primitive" = some prim)
    (hcomp : pObj.getOwn "component" = some (JSValue.vref c))
    (hcirc : pObj.getOwn "circularReference" = some (JSValue.vref b))
    (hb : h.objs b = some bObj)
    (hpn : p < h.nextRef) (hbn : b < h.nextRef) :
    ∃ h', Prototype.clone h p = some (h.nextRef, h') ∧
      ∀ fuel, 2 ≤ fuel → h'.getProp fuel h.nextRef "primitive" = some prim := by
  refine ⟨cloneResultHeap h p pObj c bObj,
    clone_spec h p c b pObj bObj hp hcomp hcirc hb hbn, ?_⟩
  intro fuel hf
  obtain ⟨k, rfl⟩ : ∃ k, fuel = k + 2 := ⟨fuel - 2, by omega⟩
  have h0 : ¬ (p = h.nextRef) := by omega
  have h1 : ¬ (p = h.nextRef + 1) := by omega
  have h2 : ¬ (p = h.nextRef + 2) := by omega
  have h3 : ¬ (p = h.nextRef + 3) := by omega
  have hprim' : List.lookup "primitive" pObj.fields = some prim := hprim
  simp [JSHeap.getProp, cloneResultHeap, JSObj.getOwn, List.lookup,
    h0, h1, h2, h3, hp, hprim']

theorem clone_primitive_value_preserved_witness :
    ∃ h', Prototype.clone exampleHeap 0 = some (3, h') ∧
      ∀ fuel, 2 ≤ fuel → h'.getProp fuel 3 "primitive" = some (JSValue.vprim 245) :=
  clone_primitive_value_preserved exampleHeap 0 1 2 p1Obj holderObj
    (JSValue.vprim 245) rfl rfl rfl rfl rfl (by decide) (by decide)

/-- Claim C6: cloning does not mutate the source: every reference live
before the call maps to an unchanged object afterwards, in particular the
source object itself, its component and its back-reference holder. -/
theorem clone_does_not_mutate_source (h : JSHeap) (p c b : Nat) (pObj bObj : JSObj)
    (hp : h.objs p = some pObj)
    (hcomp : pObj.getOwn "component" = some (JSValue.vref c))
    (hcirc : pObj.getOwn "circularReference" = some (JSValue.vref b))
    (hb : h.objs b = some bObj)
    (hpn : p < h.nextRef) (hcn : c < h.nextRef) (hbn : b < h.nextRef) :
    ∃ h', Prototype.clone h p = some (h.nextRef, h') ∧
      (∀ r, r < h.nextRef → h'.objs r = h.objs r) ∧
      h'.objs p = some pObj ∧ h'.objs c = h.objs c ∧ h'.objs b = some bObj := by
  refine ⟨cloneResultHeap h p pObj c bObj,
    clone_spec h p c b pObj bObj hp hcomp hcirc hb hbn,
    fun r hr => cloneResultHeap_frame h p pObj c bObj r hr, ?_, ?_, ?_⟩
  · rw [cloneResultHeap_frame h p pObj c bObj p hpn]; exact hp
  · exact cloneResultHeap_frame h p pObj c bObj c hcn
  · rw [cloneResultHeap_frame h p pObj c bObj b hbn]; exact hb

theorem clone_does_not_mutate_source_witness :
    ∃ h', Prototype.clone exampleHeap 0 = some (3, h') ∧
      (∀ r, r < 3 → h'.objs r = exampleHeap.objs r) ∧
      h'.objs 0 = some p1Obj ∧ h'.objs 1 = exampleHeap.objs 1 ∧
      h'.objs 2 = some holderObj :=
  clone_does_not_mutate_source exampleHeap 0 1 2 p1Obj holderObj rfl rfl rfl rfl
    (by decide) (by decide) (by decide)

/-- Claim C1 is false of the code: on the spec's own example input the
clone is allocated at reference 3, but the clone's back-reference owner
(`clone.circularReference.prototype`) is the fresh shallow copy allocated
at reference 5 — reference-equal neither to the clone nor to the original,
although the source's own comment says the nested object should point to
the cloned object after cloning. -/
theorem clone_backref_owner_is_fresh_copy_not_clone :
    cloneRefOf exampleHeap 0 = some 3 ∧
    backRefOwnerOfClone exampleHeap 0 = some (JSValue.vref 5) ∧
    (5 : Nat) ≠ 3 ∧ (5 : Nat) ≠ 0 := by decide

/-- Claim C2 as stated is false of the code: on the example input the
source component (reference 1) has the own enumerable field `time`, but
the cloned component has no own fields at all — `Object.create` copies no
fields, so reading `time` as an own property of the clone's component
yields nothing. -/
theorem clone_component_own_fields_not_copied :
    exampleHeap.getOwnAt 1 "time" = some (JSValue.vprim 1699999999) ∧
    componentOwnFieldOfClone exampleHeap 0 "time" = none := by decide

/-- Claim C2 amended: the clone's component is a new object,
reference-distinct from the source component, created with the source
component as its prototype; it has no own fields, and every field of the
source component is readable through it by prototype delegation, so the
two agree field for field one level deep. -/
theorem clone_component_delegates_fields (h : JSHeap) (p c b : Nat)
    (pObj cObj bObj : JSObj)
    (hp : h.objs p = some pObj)
    (hcomp : pObj.getOwn "component" = some (JSValue.vref c))
    (hcirc : pObj.getOwn "circularReference" = some (JSValue.vref b))
    (hc : h.objs c = some cObj)
    (hb : h.objs b = some bObj)
    (hcn : c < h.nextRef) (hbn : b < h.nextRef) :
    ∃ h' cc,
      Prototype.clone h p = some (h.nextRef, h') ∧
      h'.getOwnAt h.nextRef "component" = some (JSValue.vref cc) ∧
      cc ≠ c ∧
      h'.objs cc = some { proto := some c, fields := [] } ∧
      (∀ f v, cObj.getOwn f = some v →
        ∀ fuel, 2 ≤ fuel → h'.getProp fuel cc f = some v) := by
  refine ⟨cloneResultHeap h p pObj c bObj, h.nextRef + 1,
    clone_spec h p c b pObj bObj hp hcomp hcirc hb hbn, ?_, by omega, ?_, ?_⟩
  · simp [JSHeap.getOwnAt, cloneResultHeap, JSObj.getOwn, List.lookup]
  · have e10 : ¬ (h.nextRef + 1 = h.nextRef) := by omega
    simp [cloneResultHeap, e10]
  · intro f v hv fuel hf
    obtain ⟨k, rfl⟩ : ∃ k, fuel = k + 2 := ⟨fuel - 2, by omega⟩
    have e10 : ¬ (h.nextRef + 1 = h.nextRef) := by omega
    have ec0 : ¬ (c = h.nextRef) := by omega
    have ec1 : ¬ (c = h.nextRef + 1) := by omega
    have ec2 : ¬ (c = h.nextRef + 2) := by omega
    have ec3 : ¬ (c = h.nextRef + 3) := by omega
    have hv' : List.lookup f cObj.fields = some v := hv
    simp [JSHeap.getProp, cloneResultHeap, JSObj.getOwn, List.lookup,
      e10, ec0, ec1, ec2, ec3, hc, hv']

theorem clone_component_delegates_fields_witness :
    ∃ h' cc,
      Prototype.clone exampleHeap 0 = some (3, h') ∧
      h'.getOwnAt 3 "component" = some (JSValue.vref cc) ∧
      cc ≠ 1 ∧
      h'.objs cc = some { proto := some 1, fields := [] } ∧
      (∀ f v, dateObj.getOwn f = some v →
        ∀ fuel, 2 ≤ fuel → h'.getProp fuel cc f = some v) :=
  clone_component_delegates_fields exampleHeap 0 1 2 p1Obj dateObj holderObj
    rfl rfl rfl rfl rfl (by decide) (by decide)

/-- Claim C7: over any input satisfying the well-formedness shape check
(`component` and back-reference holder populated with live objects) the
source clone is total — it always returns a complete clone, no error
branch is reachable — and the spec-modelled checked clone agrees with it;
on a malformed input the checked clone fails fast with the
`InvalidArgument`-class error. -/
theorem clone_total_on_wellformed_and_checked_fails_fast (h : JSHeap) (p : Nat) :
    (hasRequiredFields h p = true →
      ∃ res, Prototype.clone h p = some res ∧ cloneChecked h p = Except.ok res) ∧
    (hasRequiredFields h p = false →
      cloneChecked h p = Except.error CloneError.invalidArgument) := by
  constructor
  · intro hreq
    have hclone : ∃ res, Prototype.clone h p = some res := by
      have hsh := hreq
      unfold hasRequiredFields at hsh
      cases hobjs : h.objs p with
      | none => simp [hobjs] at hsh
      | some pObj =>
        simp only [hobjs] at hsh
        cases hcompv : pObj.getOwn "component" with
        | none => simp [hcompv] at hsh
        | some v =>
          cases v with
          | vprim m => simp [hcompv] at hsh
          | vref c =>
            cases hcl : Prototype.clone h p with
            | some res => exact ⟨res, rfl⟩
            | none => simp [Prototype.clone, hobjs, hcompv] at hcl
    obtain ⟨res, hres⟩ := hclone
    exact ⟨res, hres, by simp [cloneChecked, hreq, hres]⟩
  · intro hreq
    simp [cloneChecked, hreq]

theorem clone_total_on_wellformed_and_checked_fails_fast_witness :
    (∃ res, Prototype.clone exampleHeap 0 = some res ∧
      cloneChecked exampleHeap 0 = Except.ok res) ∧
    cloneChecked badHeap 0 = Except.error CloneError.invalidArgument :=
  ⟨(clone_total_on_wellformed_and_checked_fails_fast exampleHeap 0).1 (by decide),
   (clone_total_on_wellformed_and_checked_fails_fast badHeap 0).2 (by decide)⟩

/-- Claim C8: the clone shares state with its source by prototype-chain
delegation: the clone has no own `primitive` field and the cloned
component has no own fields, so after assigning a new value to the
source's `primitive` the clone reads that new value through the chain,
and after assigning a field of the source component the clone's component
reads that new value through the chain. -/
theorem clone_shares_state_by_delegation (h : JSHeap) (p c b : Nat)
    (pObj cObj bObj : JSObj)
    (hp : h.objs p = some pObj)
    (hcomp : pObj.getOwn "component" = some (JSValue.vref c))
    (hcirc : pObj.getOwn "circularReference" = some (JSValue.vref b))
    (hc : h.objs c = some cObj)
    (hb : h.objs b = some bObj)
    (hpn : p < h.nextRef) (hcn : c < h.nextRef) (hbn : b < h.nextRef) :
    ∃ h', Prototype.clone h p = some (h.nextRef, h') ∧
      h'.getOwnAt h.nextRef "primitive" = none ∧
      h'.objs (h.nextRef + 1) = some { proto := some c, fields := [] } ∧
      (∀ w, ∀ fuel, 2 ≤ fuel →
        (h'.setObjField p "primitive" w).getProp fuel h.nextRef "primitive" = some w) ∧
      (∀ f w, ∀ fuel, 2 ≤ fuel →
        (h'.setObjField c f w).getProp fuel (h.nextRef + 1) f = some w) := by
  have e10 : ¬ (h.nextRef + 1 = h.nextRef) := by omega
  refine ⟨cloneResultHeap h p pObj c bObj,
    clone_spec h p c b pObj bObj hp hcomp hcirc hb hbn, ?_, ?_, ?_, ?_⟩
  · simp [JSHeap.getOwnAt, cloneResultHeap, JSObj.getOwn, List.lookup]
  · simp [cloneResultHeap, e10]
  · intro w fuel hf
    obtain ⟨k, rfl⟩ : ∃ k, fuel = k + 2 := ⟨fuel - 2, by omega⟩
    have hHp : (cloneResultHeap h p pObj c bObj).objs p = some pObj := by
      rw [cloneResultHeap_frame h p pObj c bObj p hpn]; exact hp
    have e0p : ¬ (h.nextRef = p) := by omega
    have epn1 : ¬ (p = h.nextRef + 1) := by omega
    have epn2 : ¬ (p = h.nextRef + 2) := by omega
    have epn3 : ¬ (p = h.nextRef + 3) := by omega
    simp only [JSHeap.setObjField, hHp]
    simp [JSHeap.setObj, JSHeap.getProp, cloneResultHeap, JSObj.getOwn,
      List.lookup, e0p, epn1, epn2, epn3, lookup_setField_self]
  · intro f w fuel hf
    obtain ⟨k, rfl⟩ : ∃ k, fuel = k + 2 := ⟨fuel - 2, by omega⟩
    have hHc : (cloneResultHeap h p pObj c bObj).objs c = some cObj := by
      rw [cloneResultHeap_frame h p pObj c bObj c hcn]; exact hc
    have e1c : ¬ (h.nextRef + 1 = c) := by omega
    simp only [JSHeap.setObjField, hHc]
    simp [JSHeap.setObj, JSHeap.getProp, cloneResultHeap, JSObj.getOwn,
      List.lookup, e1c, e10, lookup_setField_self]

theorem clone_shares_state_by_delegation_witness :
    ∃ h', Prototype.clone exampleHeap 0 = some (3, h') ∧
      h'.getOwnAt 3 "primitive" = none ∧
      h'.objs 4 = some { proto := some 1, fields := [] } ∧
      (∀ w, ∀ fuel, 2 ≤ fuel →
        (h'.setObjField 0 "primitive" w).getProp fuel 3 "primitive" = some w) ∧
      (∀ f w, ∀ fuel, 2 ≤ fuel →
        (h'.setObjField 1 f w).getProp fuel 4 f = some w) :=
  clone_shares_state_by_delegation exampleHeap 0 1 2 p1Obj dateObj holderObj
    rfl rfl rfl rfl rfl (by decide) (by decide) (by decide)
